import Mathlib

/-!
Verification development for the animation playback and rendering core of the
chat-to-visualization frontend.  The definitions below are a shallow embedding
of the TypeScript source:

* `transformVisualizationData`, `applyEasing` and the per-frame animation
  resolution come from `src/App.tsx` (lines 12-73);
* the playback tick effect and the seek handler come from `src/App.tsx`
  (lines 192-226 and 289-295);
* `getCurrentFrame`, `drawObject` dispatch and `render` come from
  `src/components/VisualizationCanvas.tsx`.

JavaScript numbers are modelled by `JSVal`: an exact rational together with the
IEEE special values `+Infinity`, `-Infinity` and `NaN`.  All inputs of the
embedded functions are finite rationals, so no rounding occurs; the special
values matter only where the source divides (`x / 0` yields an infinity and
`0 / 0` yields `NaN` in JavaScript) and the subsequent arithmetic and
`Math.min` / `Math.max` calls must propagate them the way JavaScript does.
Negative zero is not distinguished from zero: the only divisions performed by
the source have a denominator that is an exact difference of finite numbers,
for which JavaScript produces `+0` when the operands are equal.
-/

namespace AIFlow

/-- JavaScript number: an exact rational or one of the IEEE special values. -/
inductive JSVal where
  | num (q : ℚ)
  | posInf
  | negInf
  | nan
deriving DecidableEq, Repr

/-- JavaScript unary minus. -/
def jsNeg : JSVal → JSVal
  | .num q => .num (-q)
  | .posInf => .negInf
  | .negInf => .posInf
  | .nan => .nan

/-- JavaScript addition on `JSVal`. -/
def jsAdd : JSVal → JSVal → JSVal
  | .nan, _ => .nan
  | _, .nan => .nan
  | .num a, .num b => .num (a + b)
  | .num _, .posInf => .posInf
  | .num _, .negInf => .negInf
  | .posInf, .num _ => .posInf
  | .negInf, .num _ => .negInf
  | .posInf, .posInf => .posInf
  | .negInf, .negInf => .negInf
  | .posInf, .negInf => .nan
  | .negInf, .posInf => .nan

/-- JavaScript subtraction, `a - b = a + (-b)`. -/
def jsSub (a b : JSVal) : JSVal := jsAdd a (jsNeg b)

/-- JavaScript multiplication on `JSVal`; `0 * Infinity` is `NaN`. -/
def jsMul : JSVal → JSVal → JSVal
  | .nan, _ => .nan
  | _, .nan => .nan
  | .num a, .num b => .num (a * b)
  | .num a, .posInf => if a = 0 then .nan else if 0 < a then .posInf else .negInf
  | .num a, .negInf => if a = 0 then .nan else if 0 < a then .negInf else .posInf
  | .posInf, .num b => if b = 0 then .nan else if 0 < b then .posInf else .negInf
  | .negInf, .num b => if b = 0 then .nan else if 0 < b then .negInf else .posInf
  | .posInf, .posInf => .posInf
  | .posInf, .negInf => .negInf
  | .negInf, .posInf => .negInf
  | .negInf, .negInf => .posInf

/-- JavaScript division on `JSVal`; `0 / 0` is `NaN`, `x / 0` for `x ≠ 0` is a
signed infinity (the denominators produced by the source are `+0`). -/
def jsDiv : JSVal → JSVal → JSVal
  | .nan, _ => .nan
  | _, .nan => .nan
  | .num a, .num b =>
      if b = 0 then (if a = 0 then .nan else if 0 < a then .posInf else .negInf)
      else .num (a / b)
  | .num _, .posInf => .num 0
  | .num _, .negInf => .num 0
  | .posInf, .num b => if 0 ≤ b then .posInf else .negInf
  | .negInf, .num b => if 0 ≤ b then .negInf else .posInf
  | .posInf, _ => .nan
  | .negInf, _ => .nan

/-- JavaScript strict less-than; every comparison with `NaN` is false. -/
def jsLt : JSVal → JSVal → Bool
  | .nan, _ => false
  | _, .nan => false
  | .num a, .num b => decide (a < b)
  | .num _, .posInf => true
  | .num _, .negInf => false
  | .posInf, _ => false
  | .negInf, .negInf => false
  | .negInf, _ => true

/-- JavaScript `Math.min` on two arguments: `NaN` if either argument is. -/
def jsMin : JSVal → JSVal → JSVal
  | .nan, _ => .nan
  | _, .nan => .nan
  | .num a, .num b => .num (min a b)
  | .num a, .posInf => .num a
  | .num _, .negInf => .negInf
  | .posInf, b => b
  | .negInf, _ => .negInf

/-- JavaScript `Math.max` on two arguments: `NaN` if either argument is. -/
def jsMax : JSVal → JSVal → JSVal
  | .nan, _ => .nan
  | _, .nan => .nan
  | .num a, .num b => .num (max a b)
  | .num a, .negInf => .num a
  | .num _, .posInf => .posInf
  | .negInf, b => b
  | .posInf, _ => .posInf

/-- Embeds `applyEasing` from `src/App.tsx` (lines 62-73).  The source switches
on the easing string and falls through to linear for any other string. -/
def applyEasing (t : JSVal) (easing : String) : JSVal :=
  if easing = "ease-in" then
    jsMul t t
  else if easing = "ease-out" then
    jsSub (.num 1) (jsMul (jsSub (.num 1) t) (jsSub (.num 1) t))
  else if easing = "ease-in-out" then
    if jsLt t (.num (1/2)) then
      jsMul (jsMul (.num 2) t) t
    else
      jsSub (.num 1) (jsMul (jsMul (.num 2) (jsSub (.num 1) t)) (jsSub (.num 1) t))
  else
    t

/-- Property value stored in a property bag: a JavaScript number or a string
(for example a color).  The source guards interpolation with
`typeof v === 'number'`, which holds exactly for the `num` constructor. -/
inductive PropVal where
  | num (v : JSVal)
  | str (s : String)
deriving DecidableEq, Repr

/-- The `typeof v === 'number'` test of the source. -/
def isNumber : PropVal → Bool
  | .num _ => true
  | .str _ => false

/-- Open-ended property bag: property name to optional value. -/
def Props : Type := String → Option PropVal

/-- Assignment `properties[key] = v` on a property bag. -/
def setProp (p : Props) (key : String) (v : PropVal) : Props :=
  fun q => if q = key then some v else p q

/-- Animation descriptor as consumed by `transformVisualizationData`
(field names follow the source: `anim.property`, `anim.startTime`,
`anim.endTime`, `anim.fromValue`, `anim.toValue`, `anim.easing`). -/
structure Anim where
  property : String
  startTime : ℚ
  endTime : ℚ
  fromValue : PropVal
  toValue : PropVal
  easing : String

/-- Embeds the body of the `layer.animations.forEach` in
`transformVisualizationData` (`src/App.tsx` lines 29-39): at sample time `t`,
one animation descriptor updates the property bag.  The window test, the
progress division, the easing and the numeric guard mirror the source; a
non-numeric `fromValue` or `toValue` leaves the bag untouched. -/
def applyAnim (t : ℚ) (props : Props) (anim : Anim) : Props :=
  if anim.startTime ≤ t ∧ t ≤ anim.endTime then
    let progress := jsDiv (.num (t - anim.startTime)) (.num (anim.endTime - anim.startTime))
    let easedProgress := applyEasing progress anim.easing
    match anim.fromValue, anim.toValue with
    | .num f, .num g =>
        setProp props anim.property (.num (jsAdd f (jsMul (jsSub g f) easedProgress)))
    | _, _ => props
  else
    props

/-- Database layer as consumed by `transformVisualizationData`.  A missing
`animations` field behaves like the empty list (the source only guards the
`forEach` with `if (layer.animations)`). -/
structure Layer where
  layerId : String
  type : String
  props : Props
  animations : List Anim

/-- Resolved drawable object of one frame. -/
structure VisObject where
  id : String
  type : String
  properties : Props

/-- Embeds the `layers.map` body of `transformVisualizationData`
(`src/App.tsx` lines 24-47): the property bag starts as a copy of
`layer.props` and every animation descriptor is applied in declaration
order. -/
def resolveObject (t : ℚ) (layer : Layer) : VisObject :=
  { id := layer.layerId
    type := layer.type
    properties := layer.animations.foldl (applyAnim t) layer.props }

/-- Precomputed frame: a timestamp plus resolved objects. -/
structure Frame where
  timestamp : ℚ
  objects : List VisObject

/-- The `dbVisualization.duration || 5000` default of `src/App.tsx` line 19,
restricted to rational inputs where `0` is the falsy case. -/
def durationOrDefault (d : ℚ) : ℚ := if d = 0 then 5000 else d

/-- The `Math.ceil(duration / 16)` frame count of `src/App.tsx` line 20; a
non-positive duration yields zero loop iterations. -/
def frameCount (d : ℚ) : ℕ := (⌈d / 16⌉).toNat

/-- Database visualization input of `transformVisualizationData`; `layers` is
optional because the source returns `{}` when it is absent. -/
structure DBVisualization where
  duration : ℚ
  layers : Option (List Layer)

/-- Frame number `i` of the sampling loop of `transformVisualizationData`:
timestamp `i * 16` and one resolved object per layer. -/
def sampleFrame (layers : List Layer) (i : ℕ) : Frame :=
  { timestamp := (16 : ℚ) * i
    objects := layers.map (resolveObject ((16 : ℚ) * i)) }

/-- Embeds `transformVisualizationData` from `src/App.tsx` (lines 12-59).
Returns `none` where the source returns `{}` (no `frames` key); otherwise the
list of frames sampled at timestamps `16 * i` for `i < Math.ceil(d / 16)`. -/
def transformVisualizationData (v : Option DBVisualization) : Option (List Frame) :=
  match v with
  | none => none
  | some vis =>
    match vis.layers with
    | none => none
    | some layers =>
        let d := durationOrDefault vis.duration
        some ((List.range (frameCount d)).map (sampleFrame layers))

/-- Embeds the `for (const frame of visualization.frames)` loop of
`getCurrentFrame` in `VisualizationCanvas.tsx`: `cur` is the accumulator
`currentFrame`; the loop overwrites it while `frame.timestamp <= t` and breaks
at the first frame with a larger timestamp. -/
def findFrameLoop (t : ℚ) (cur : Frame) : List Frame → Frame
  | [] => cur
  | f :: fs => if f.timestamp ≤ t then findFrameLoop t f fs else cur

/-- Embeds `getCurrentFrame` from `VisualizationCanvas.tsx` (lines 34-51):
`none` models the null result for an absent visualization or an empty frame
list; otherwise the loop runs over the whole list with `frames[0]` as the
initial accumulator. -/
def getCurrentFrame (frames : Option (List Frame)) (t : ℚ) : Option Frame :=
  match frames with
  | none => none
  | some [] => none
  | some (f0 :: fs) => some (findFrameLoop t f0 (f0 :: fs))

/-- The `AnimationState` of `src/App.tsx`; `progress` is a JavaScript number
because `handleSeek` can store `NaN` or a clamped infinity in it. -/
structure AnimationState where
  isPlaying : Bool
  currentTime : ℚ
  duration : ℚ
  progress : JSVal
deriving DecidableEq, Repr

/-- Embeds one 16 ms tick of the animation timer effect in `src/App.tsx`
(lines 192-226).  The effect installs the interval only while
`animationState.isPlaying && animationState.duration > 0`, so outside that
guard a tick is the identity; inside it the updater computes
`newTime = Math.min(prev.currentTime + 16, prev.duration)` and clears
`isPlaying` when `newTime >= prev.duration`. -/
def tick (s : AnimationState) : AnimationState :=
  if s.isPlaying ∧ 0 < s.duration then
    let newTime := min (s.currentTime + 16) s.duration
    let newProgress := jsDiv (.num newTime) (.num s.duration)
    if s.duration ≤ newTime then
      { s with currentTime := newTime, progress := newProgress, isPlaying := false }
    else
      { s with currentTime := newTime, progress := newProgress }
  else
    s

/-- Embeds `handleSeek` from `src/App.tsx` (lines 289-295):
`currentTime = Math.max(0, Math.min(time, duration))` and
`progress = Math.max(0, Math.min(time / duration, 1))`, the latter computed
with JavaScript division. -/
def handleSeek (time : ℚ) (s : AnimationState) : AnimationState :=
  { s with
      currentTime := max 0 (min time s.duration)
      progress := jsMax (.num 0) (jsMin (jsDiv (.num time) (.num s.duration)) (.num 1)) }

/-- Observable effect of drawing one object: either a dispatch to a geometry
helper or the `console.warn` for an unknown type tag. -/
inductive RenderEvent where
  | drawn (id : String) (fn : String)
  | warned (ty : String)
deriving DecidableEq, Repr

/-- The `switch (obj.type)` dispatch table of `drawObject` in
`VisualizationCanvas.tsx` (lines 372-436): the supported type tags and the
geometry helper each one is dispatched to; `none` is the `default` branch. -/
def dispatchDraw : String → Option String
  | "circle" => some "drawCircle"
  | "rectangle" => some "drawRectangle"
  | "rect" => some "drawRectangle"
  | "text" => some "drawText"
  | "line" => some "drawLine"
  | "arrow" => some "drawArrow"
  | "ellipse" => some "drawEllipse"
  | "triangle" => some "drawTriangle"
  | "star" => some "drawStar"
  | "polygon" => some "drawPolygon"
  | "arc" => some "drawArc"
  | "wave" => some "drawWave"
  | "grid" => some "drawGrid"
  | "vector" => some "drawVector"
  | "molecule" => some "drawMolecule"
  | "beam" => some "drawBeam"
  | "particle" => some "drawParticle"
  | "orbit" => some "drawOrbit"
  | "pendulum" => some "drawPendulum"
  | "spring" => some "drawSpring"
  | "path" => some "drawPath"
  | _ => none

/-- Embeds `drawObject` of `VisualizationCanvas.tsx` at the dispatch level: a
known type tag is dispatched to its helper, the `default` branch logs a
warning and draws nothing; neither branch throws. -/
def drawObject (o : VisObject) : RenderEvent :=
  match dispatchDraw o.type with
  | some fn => .drawn o.id fn
  | none => .warned o.type

/-- Embeds the object loop of `render` in `VisualizationCanvas.tsx`
(lines 446-477): `currentFrame.objects.forEach(obj => drawObject(ctx, obj))`,
producing the draw events in list order. -/
def render (frame : Frame) : List RenderEvent :=
  frame.objects.map drawObject

/-- Concrete property bag used in counterexamples: a single numeric `x`. -/
def xProps : Props := fun k => if k = "x" then some (.num (.num 0)) else none

/-- Concrete animation of `x` from 100 to 200 over the window `[16, 32]`. -/
def xAnim : Anim :=
  { property := "x", startTime := 16, endTime := 32
    fromValue := .num (.num 100), toValue := .num (.num 200), easing := "linear" }

/-- Concrete layer carrying `xAnim`, with base `x = 0`. -/
def xLayer : Layer :=
  { layerId := "shape1", type := "circle", props := xProps, animations := [xAnim] }

/-- Concrete property bag with a single base value `x = 5`. -/
def snapProps : Props := fun k => if k = "x" then some (.num (.num 5)) else none

/-- Concrete degenerate animation descriptor with `endTime = startTime`. -/
def snapAnim : Anim :=
  { property := "x", startTime := 16, endTime := 16
    fromValue := .num (.num 0), toValue := .num (.num 100), easing := "linear" }

/-- Concrete property bag with a single base color `green`. -/
def colorProps : Props := fun k => if k = "color" then some (.str "green") else none

/-- Concrete non-numeric animation descriptor: color `red` to `blue` over
the window `[0, 1000]`. -/
def colorAnim : Anim :=
  { property := "color", startTime := 0, endTime := 1000
    fromValue := .str "red", toValue := .str "blue", easing := "linear" }

/-- Concrete opacity animation 1 to 0 over `[0, 1000]`, declared first. -/
def opacityAnim1 : Anim :=
  { property := "opacity", startTime := 0, endTime := 1000
    fromValue := .num (.num 1), toValue := .num (.num 0), easing := "linear" }

/-- Concrete opacity animation 0 to 1 over `[0, 1000]`, declared second. -/
def opacityAnim2 : Anim :=
  { property := "opacity", startTime := 0, endTime := 1000
    fromValue := .num (.num 0), toValue := .num (.num 1), easing := "linear" }

/-- Concrete layer with the two overlapping opacity animations. -/
def opacityLayer : Layer :=
  { layerId := "shape2", type := "circle"
    props := fun k => if k = "opacity" then some (.num (.num 1)) else none
    animations := [opacityAnim1, opacityAnim2] }

/-- Concrete frame list with non-decreasing timestamps, for witnesses. -/
def demoFrames : List Frame := [⟨0, []⟩, ⟨16, []⟩, ⟨32, []⟩]

/-- Concrete playing state: time 0 of a 32 ms visualization. -/
def demoPlaying : AnimationState :=
  { isPlaying := true, currentTime := 0, duration := 32, progress := .num 0 }

/-- Concrete idle state whose visualization has duration 0. -/
def demoZeroDuration : AnimationState :=
  { isPlaying := false, currentTime := 0, duration := 0, progress := .num 0 }

/-- Concrete visualization input with an empty layer list and duration 40. -/
def demoVis : DBVisualization := { duration := 40, layers := some [] }

/-!  Theorems.  Helper lemmas come first, then one theorem per claim together
with its witness or counterexample. -/

/-- Helper: JavaScript subtraction of two finite numbers is exact rational
subtraction. -/
theorem jsSub_num (a b : ℚ) : jsSub (.num a) (.num b) = .num (a - b) := by
  simp [jsSub, jsNeg, jsAdd, sub_eq_add_neg]

/-- Helper: every easing variant maps 0 to 0. -/
theorem applyEasing_zero (e : String) : applyEasing (.num 0) e = .num 0 := by
  unfold applyEasing
  split_ifs <;> simp_all [jsLt, jsMul, jsSub, jsNeg, jsAdd] <;> norm_num

/-- Helper: every easing variant maps 1 to 1. -/
theorem applyEasing_one (e : String) : applyEasing (.num 1) e = .num 1 := by
  unfold applyEasing
  split_ifs <;> simp_all [jsLt, jsMul, jsSub, jsNeg, jsAdd] <;> norm_num at *

/-- Helper: every easing variant propagates `NaN`. -/
theorem applyEasing_nan (e : String) : applyEasing .nan e = .nan := by
  unfold applyEasing
  split_ifs <;> simp_all [jsLt, jsMul, jsSub, jsNeg, jsAdd]

/-- C2: the four easing functions of `applyEasing` agree with the closed forms
`t`, `t²`, `t·(2−t)` and `t<0.5 ? 2t² : −1+(4−2t)t` on `[0,1]` (the code's
`1−(1−t)²` and `1−2(1−t)²` formulas are proved equal to these), each variant
maps 0 to 0 and 1 to 1, and the spot values `ease-in(1/2)=1/4`,
`ease-out(1/2)=3/4`, `ease-in-out(1/4)=1/8`, `ease-in-out(3/4)=7/8` hold. -/
theorem easing_closed_forms (t : ℚ) (h0 : 0 ≤ t) (h1 : t ≤ 1) :
    applyEasing (.num t) "linear" = .num t ∧
    applyEasing (.num t) "ease-in" = .num (t * t) ∧
    applyEasing (.num t) "ease-out" = .num (t * (2 - t)) ∧
    applyEasing (.num t) "ease-in-out" =
      .num (if t < 1/2 then 2 * t * t else -1 + (4 - 2 * t) * t) ∧
    (applyEasing (.num 0) "linear" = .num 0 ∧ applyEasing (.num 1) "linear" = .num 1) ∧
    (applyEasing (.num 0) "ease-in" = .num 0 ∧ applyEasing (.num 1) "ease-in" = .num 1) ∧
    (applyEasing (.num 0) "ease-out" = .num 0 ∧ applyEasing (.num 1) "ease-out" = .num 1) ∧
    (applyEasing (.num 0) "ease-in-out" = .num 0 ∧
      applyEasing (.num 1) "ease-in-out" = .num 1) ∧
    applyEasing (.num (1/2)) "ease-in" = .num (1/4) ∧
    applyEasing (.num (1/2)) "ease-out" = .num (3/4) ∧
    applyEasing (.num (1/4)) "ease-in-out" = .num (1/8) ∧
    applyEasing (.num (3/4)) "ease-in-out" = .num (7/8) := by
  refine ⟨rfl, rfl, ?_, ?_,
    ⟨applyEasing_zero "linear", applyEasing_one "linear"⟩,
    ⟨applyEasing_zero "ease-in", applyEasing_one "ease-in"⟩,
    ⟨applyEasing_zero "ease-out", applyEasing_one "ease-out"⟩,
    ⟨applyEasing_zero "ease-in-out", applyEasing_one "ease-in-out"⟩,
    by simp [applyEasing, jsMul]; norm_num,
    by simp [applyEasing, jsMul, jsSub, jsNeg, jsAdd]; norm_num,
    by simp [applyEasing, jsMul, jsSub, jsNeg, jsAdd, jsLt]; norm_num,
    by simp [applyEasing, jsMul, jsSub, jsNeg, jsAdd, jsLt]; norm_num⟩
  · have h : applyEasing (.num t) "ease-out"
        = .num (1 + -((1 + -t) * (1 + -t))) := rfl
    rw [h]
    congr 1
    ring
  · by_cases hc : t < 1/2
    · have hlt : jsLt (.num t) (.num (1/2)) = true := by
        simp only [jsLt, decide_eq_true_eq]
        exact hc
      have h : applyEasing (.num t) "ease-in-out"
          = if jsLt (.num t) (.num (1/2)) then jsMul (jsMul (.num 2) (.num t)) (.num t)
            else jsSub (.num 1)
              (jsMul (jsMul (.num 2) (jsSub (.num 1) (.num t))) (jsSub (.num 1) (.num t))) :=
        rfl
      rw [h, hlt, if_pos rfl, if_pos hc]
      rfl
    · have hlt : jsLt (.num t) (.num (1/2)) = false := by
        simp only [jsLt, decide_eq_false_iff_not]
        exact hc
      have h : applyEasing (.num t) "ease-in-out"
          = if jsLt (.num t) (.num (1/2)) then jsMul (jsMul (.num 2) (.num t)) (.num t)
            else jsSub (.num 1)
              (jsMul (jsMul (.num 2) (jsSub (.num 1) (.num t))) (jsSub (.num 1) (.num t))) :=
        rfl
      rw [h, hlt, if_neg (by simp), if_neg hc]
      have h2 : jsSub (.num 1)
          (jsMul (jsMul (.num 2) (jsSub (.num 1) (.num t))) (jsSub (.num 1) (.num t)))
          = .num (1 + -((2 * (1 + -t)) * (1 + -t))) := rfl
      rw [h2]
      congr 1
      ring

/-- Witness for C2 at `t = 1/2`. -/
theorem easing_closed_forms_witness :
    (0 : ℚ) ≤ 1/2 ∧ (1/2 : ℚ) ≤ 1 ∧
      applyEasing (.num (1/2)) "ease-in" = .num (1/4) :=
  ⟨by norm_num, by norm_num,
    (easing_closed_forms (1/2) (by norm_num) (by norm_num)).2.2.2.2.2.2.2.2.1⟩

/-- Helper: reading back the property just assigned. -/
theorem setProp_same (p : Props) (k : String) (v : PropVal) : setProp p k v k = some v := by
  simp [setProp]

/-- Helper: assignment leaves every other property unchanged. -/
theorem setProp_other (p : Props) (k q : String) (v : PropVal) (h : q ≠ k) :
    setProp p k v q = p q := by
  simp [setProp, h]

/-- Helper: outside its window an animation descriptor changes nothing. -/
theorem applyAnim_outside (t : ℚ) (props : Props) (a : Anim)
    (h : ¬(a.startTime ≤ t ∧ t ≤ a.endTime)) : applyAnim t props a = props := by
  simp [applyAnim, h]

/-- Helper: inside its window a numeric animation descriptor assigns the
eased interpolation of its endpoints. -/
theorem applyAnim_inside (t : ℚ) (props : Props) (a : Anim) (f g : JSVal)
    (hf : a.fromValue = .num f) (hg : a.toValue = .num g)
    (h1 : a.startTime ≤ t) (h2 : t ≤ a.endTime) :
    applyAnim t props a = setProp props a.property
      (.num (jsAdd f (jsMul (jsSub g f)
        (applyEasing (jsDiv (.num (t - a.startTime)) (.num (a.endTime - a.startTime)))
          a.easing)))) := by
  simp [applyAnim, h1, h2, hf, hg]

/-- Helper: interpolating with eased progress 0 yields the start value. -/
theorem lerp_zero (f g : ℚ) :
    jsAdd (.num f) (jsMul (jsSub (.num g) (.num f)) (.num 0)) = .num f := by
  simp [jsAdd, jsMul, jsSub, jsNeg]

/-- Helper: interpolating with eased progress 1 yields the end value. -/
theorem lerp_one (f g : ℚ) :
    jsAdd (.num f) (jsMul (jsSub (.num g) (.num f)) (.num 1)) = .num g := by
  have h : f + (g + -f) * 1 = g := by ring
  simp [jsAdd, jsMul, jsSub, jsNeg, h]

/-- Helper: multiplication by `NaN` yields `NaN`. -/
theorem jsMul_nan (x : JSVal) : jsMul x .nan = .nan := by
  cases x <;> rfl

/-- Helper: addition of `NaN` yields `NaN`. -/
theorem jsAdd_nan (x : JSVal) : jsAdd x .nan = .nan := by
  cases x <;> rfl

/-- C1 (amended): for a layer with a single animation descriptor with proper
window (startTime < endTime) and numeric endpoints, the per-frame resolution
of transformVisualizationData interpolates inside the window — at
t = startTime the resolved property equals fromValue and at t = endTime it
equals toValue — but outside the window the animation contributes nothing: at
every resolution time t with t < startTime or t > endTime the resolved
property equals the base value from layer.props.  The animation therefore
does not stick at its final value after completion; it reverts to the base
property.  (Sample times of the transform are the instances t = 16·i.) -/
theorem animation_window_resolution (layer : Layer) (a : Anim) (f g : ℚ) (t : ℚ)
    (hanim : layer.animations = [a])
    (hf : a.fromValue = .num (.num f)) (hg : a.toValue = .num (.num g))
    (hw : a.startTime < a.endTime) :
    ((t < a.startTime ∨ a.endTime < t) →
      (resolveObject t layer).properties a.property = layer.props a.property) ∧
    (t = a.startTime →
      (resolveObject t layer).properties a.property = some (.num (.num f))) ∧
    (t = a.endTime →
      (resolveObject t layer).properties a.property = some (.num (.num g))) := by
  have hres : (resolveObject t layer).properties = applyAnim t layer.props a := by
    simp [resolveObject, hanim]
  refine ⟨?_, ?_, ?_⟩
  · intro hout
    have h : ¬(a.startTime ≤ t ∧ t ≤ a.endTime) := by
      rcases hout with h | h
      · exact fun hc => absurd hc.1 (not_le.mpr h)
      · exact fun hc => absurd hc.2 (not_le.mpr h)
    rw [hres, applyAnim_outside t layer.props a h]
  · rintro rfl
    rw [hres, applyAnim_inside _ _ _ _ _ hf hg le_rfl (le_of_lt hw)]
    have hne : a.endTime - a.startTime ≠ 0 := sub_ne_zero.mpr (ne_of_gt hw)
    have hprog : jsDiv (.num (a.startTime - a.startTime))
        (.num (a.endTime - a.startTime)) = .num 0 := by
      simp [jsDiv, hne, sub_self]
    rw [hprog, applyEasing_zero, lerp_zero, setProp_same]
  · rintro rfl
    rw [hres, applyAnim_inside _ _ _ _ _ hf hg (le_of_lt hw) le_rfl]
    have hne : a.endTime - a.startTime ≠ 0 := sub_ne_zero.mpr (ne_of_gt hw)
    have hprog : jsDiv (.num (a.endTime - a.startTime))
        (.num (a.endTime - a.startTime)) = .num 1 := by
      simp [jsDiv, hne, div_self hne]
    rw [hprog, applyEasing_one, lerp_one, setProp_same]

/-- Witness for C1 at the window start of the concrete layer. -/
theorem animation_window_resolution_witness :
    (resolveObject 16 xLayer).properties "x" = some (.num (.num 100)) := by
  have h := animation_window_resolution xLayer xAnim 100 200 16 rfl rfl rfl
    (by norm_num [xAnim])
  exact h.2.1 (by norm_num [xAnim])

/-- Counterexample to C1 as stated: at the sample time t = 0, which is before
the window start 16, the resolved property is the base value 0, not the
animation's fromValue 100 — the claim that the value equals `from` before the
window (and symmetrically sticks at `to` after it) fails on the code. -/
theorem animation_window_counterexample :
    (0 : ℚ) < xAnim.startTime ∧
    (resolveObject 0 xLayer).properties "x" = some (.num (.num 0)) ∧
    (some (PropVal.num (.num 0)) : Option PropVal) ≠ some (.num (.num 100)) := by
  refine ⟨by norm_num [xAnim], ?_, by norm_num⟩
  have h : ¬(xAnim.startTime ≤ (0:ℚ) ∧ (0:ℚ) ≤ xAnim.endTime) := by
    norm_num [xAnim]
  simp [resolveObject, xLayer, applyAnim_outside 0 xProps xAnim h, xProps]

/-- C6: when several animation descriptors of one layer target the same
property, the one declared last and covering the query time determines the
resolved value — its eased interpolation overwrites whatever any earlier
descriptor wrote, with no blending. -/
theorem last_write_wins (layer : Layer) (t : ℚ) (pre : List Anim) (a : Anim)
    (f g : ℚ) (hanims : layer.animations = pre ++ [a])
    (hcov1 : a.startTime ≤ t) (hcov2 : t ≤ a.endTime)
    (hf : a.fromValue = .num (.num f)) (hg : a.toValue = .num (.num g)) :
    (resolveObject t layer).properties a.property =
      some (.num (jsAdd (.num f) (jsMul (jsSub (.num g) (.num f))
        (applyEasing (jsDiv (.num (t - a.startTime)) (.num (a.endTime - a.startTime)))
          a.easing)))) := by
  have hres : (resolveObject t layer).properties
      = applyAnim t (pre.foldl (applyAnim t) layer.props) a := by
    simp [resolveObject, hanims, List.foldl_append]
  rw [hres, applyAnim_inside _ _ _ _ _ hf hg hcov1 hcov2, setProp_same]

/-- Witness for C6 on the spec's scenario: two opacity animations over
`[0,1000]`; at t = 500 the resolved opacity is the second descriptor's value
1/2 (interpolating 0 to 1), not the first's. -/
theorem last_write_wins_witness :
    (resolveObject 500 opacityLayer).properties "opacity" = some (.num (.num (1/2))) := by
  have h := last_write_wins opacityLayer 500 [opacityAnim1] opacityAnim2 0 1
    rfl (by norm_num [opacityAnim2]) (by norm_num [opacityAnim2]) rfl rfl
  refine h.trans ?_
  simp [opacityAnim2, applyEasing, jsDiv, jsAdd, jsMul, jsSub, jsNeg]
  norm_num

/-- C7 (amended): a degenerate or inverted window never makes resolution
fail, and properties other than the target are never touched, but there is no
snap to the `to` value: with endTime < startTime the descriptor never
applies, and with endTime = startTime the division 0/0 makes the property
`NaN` at t = startTime, while at every other time the property keeps its
prior value. -/
theorem degenerate_window_behavior (props : Props) (a : Anim) (t : ℚ) (f g : ℚ)
    (hf : a.fromValue = .num (.num f)) (hg : a.toValue = .num (.num g))
    (hdeg : a.endTime ≤ a.startTime) :
    (a.endTime < a.startTime → applyAnim t props a = props) ∧
    (a.endTime = a.startTime → t = a.startTime →
      applyAnim t props a a.property = some (.num .nan)) ∧
    (t ≠ a.startTime → applyAnim t props a = props) ∧
    (∀ q, q ≠ a.property → applyAnim t props a q = props q) := by
  refine ⟨?_, ?_, ?_, ?_⟩
  · intro hlt
    apply applyAnim_outside
    rintro ⟨h1, h2⟩
    exact absurd (le_trans h1 h2) (not_le.mpr hlt)
  · intro he ht
    subst ht
    rw [applyAnim_inside _ _ _ _ _ hf hg le_rfl (le_of_eq he.symm)]
    have hprog : jsDiv (.num (a.startTime - a.startTime))
        (.num (a.endTime - a.startTime)) = .nan := by
      rw [he]
      simp [jsDiv, sub_self]
    rw [hprog, applyEasing_nan, jsMul_nan, jsAdd_nan, setProp_same]
  · intro ht
    apply applyAnim_outside
    rintro ⟨h1, h2⟩
    exact ht (le_antisymm (le_trans h2 hdeg) h1)
  · intro q hq
    by_cases hc : a.startTime ≤ t ∧ t ≤ a.endTime
    · rw [applyAnim_inside _ _ _ _ _ hf hg hc.1 hc.2, setProp_other _ _ _ _ hq]
    · rw [applyAnim_outside _ _ _ hc]

/-- Counterexample to C7 as stated: for the degenerate window `[16,16]`, at
t = startTime = 16 the resolved property is `NaN` (from the 0/0 progress),
not the descriptor's `to` value 100, so the claimed instantaneous snap to
`to` does not happen. -/
theorem degenerate_window_counterexample :
    snapAnim.endTime ≤ snapAnim.startTime ∧
    applyAnim 16 snapProps snapAnim "x" = some (.num .nan) ∧
    (some (PropVal.num .nan) : Option PropVal) ≠ some (.num (.num 100)) := by
  refine ⟨by norm_num [snapAnim], ?_, by simp⟩
  simp [applyAnim, snapAnim, snapProps, jsDiv, applyEasing, jsMul, jsAdd, jsSub,
    jsNeg, jsLt, setProp]

/-- Witness for C7 with the concrete degenerate descriptor. -/
theorem degenerate_window_behavior_witness :
    applyAnim 16 snapProps snapAnim "x" = some (.num .nan) ∧
    applyAnim 0 snapProps snapAnim = snapProps := by
  have h := degenerate_window_behavior snapProps snapAnim 16 0 100 rfl rfl
    (by norm_num [snapAnim])
  have h0 := degenerate_window_behavior snapProps snapAnim 0 0 100 rfl rfl
    (by norm_num [snapAnim])
  exact ⟨h.2.1 rfl rfl, h0.2.2.1 (by norm_num [snapAnim])⟩

/-- C8 (amended): an animation descriptor whose `fromValue` or `toValue` is
non-numeric has no effect at any time — the resolver skips the assignment
entirely, so the property keeps the value the bag already holds; there is no
discrete switch from `from` to `to` at the window's midpoint. -/
theorem non_numeric_no_effect (props : Props) (a : Anim) (t : ℚ)
    (h : isNumber a.fromValue = false ∨ isNumber a.toValue = false) :
    applyAnim t props a = props := by
  cases hfv : a.fromValue with
  | num v =>
    cases htv : a.toValue with
    | num w => rcases h with h | h <;> simp [isNumber, hfv, htv] at h
    | str s => simp [applyAnim, hfv, htv]
  | str s =>
    cases htv : a.toValue <;> simp [applyAnim, hfv, htv]

/-- Witness for C8 on the concrete color animation. -/
theorem non_numeric_no_effect_witness :
    isNumber colorAnim.fromValue = false ∧
    applyAnim 600 colorProps colorAnim "color" = some (.str "green") := by
  refine ⟨rfl, ?_⟩
  rw [non_numeric_no_effect colorProps colorAnim 600 (Or.inl rfl)]
  simp [colorProps]

/-- Counterexample to C8 as stated: at t = 600 of the window `[0,1000]` the
eased progress is 3/5 ≥ 1/2, so the claim requires the resolved color to be
the `to` value `blue`; the code leaves the base color `green` untouched. -/
theorem color_midpoint_counterexample :
    colorAnim.startTime ≤ (600:ℚ) ∧ (600:ℚ) ≤ colorAnim.endTime ∧
    applyEasing (jsDiv (.num ((600:ℚ) - colorAnim.startTime))
      (.num (colorAnim.endTime - colorAnim.startTime))) colorAnim.easing
      = .num (3/5) ∧
    ¬((3/5 : ℚ) < 1/2) ∧
    applyAnim 600 colorProps colorAnim "color" = some (.str "green") ∧
    (some (PropVal.str "green") : Option PropVal) ≠ some (.str "blue") := by
  refine ⟨by norm_num [colorAnim], by norm_num [colorAnim], ?_, by norm_num, ?_,
    by simp⟩
  · simp [colorAnim, jsDiv, applyEasing]
    norm_num
  · simp [applyAnim, colorAnim, colorProps]

/-- Helper: a tick never changes the duration. -/
theorem tick_duration (s : AnimationState) : (tick s).duration = s.duration := by
  simp only [tick]
  split_ifs <;> rfl

/-- Helper: with the playing flag cleared the interval is gone, so a tick is
the identity. -/
theorem tick_of_stopped (s : AnimationState) (h : s.isPlaying = false) : tick s = s := by
  simp [tick, h]

/-- Helper: iterated ticks fix a stopped state. -/
theorem iterate_tick_stopped (s : AnimationState) (h : s.isPlaying = false) (k : ℕ) :
    tick^[k] s = s := by
  induction k with
  | zero => rfl
  | succ n ih => rw [Function.iterate_succ_apply, tick_of_stopped s h, ih]

/-- Helper: a tick keeps the current time at or below the duration. -/
theorem tick_time_le (s : AnimationState) (h : s.currentTime ≤ s.duration) :
    (tick s).currentTime ≤ s.duration := by
  simp only [tick]
  split_ifs <;> simp_all [min_le_right]

/-- Helper: iterated ticks never change the duration. -/
theorem iterate_tick_duration (s : AnimationState) (k : ℕ) :
    (tick^[k] s).duration = s.duration := by
  induction k with
  | zero => rfl
  | succ n ih => rw [Function.iterate_succ_apply', tick_duration, ih]

/-- Helper: iterated ticks keep the current time at or below the duration. -/
theorem iterate_tick_time_le (s : AnimationState) (h : s.currentTime ≤ s.duration)
    (k : ℕ) : (tick^[k] s).currentTime ≤ s.duration := by
  induction k with
  | zero => exact h
  | succ n ih =>
      rw [Function.iterate_succ_apply']
      have hd := iterate_tick_duration s n
      calc (tick (tick^[n] s)).currentTime
          ≤ (tick^[n] s).duration := by
            rw [hd]
            exact tick_time_le (tick^[n] s) (by rw [hd]; exact ih) |>.trans (le_of_eq hd)
        _ = s.duration := hd

/-- Helper: a tick from a playing state within 16 ms of the end clamps the
time to the duration and clears the playing flag. -/
theorem tick_reaches (s : AnimationState) (hp : s.isPlaying = true)
    (hd : 0 < s.duration) (h : s.duration ≤ s.currentTime + 16) :
    tick s = { s with currentTime := s.duration, progress := jsDiv (.num s.duration) (.num s.duration), isPlaying := false } := by
  simp [tick, hp, hd, min_eq_right h]

/-- Helper: a tick from a playing state more than 16 ms from the end advances
the time by 16 and keeps playing. -/
theorem tick_advances (s : AnimationState) (hp : s.isPlaying = true)
    (hd : 0 < s.duration) (h : s.currentTime + 16 < s.duration) :
    tick s = { s with currentTime := s.currentTime + 16, progress := jsDiv (.num (s.currentTime + 16)) (.num s.duration) } := by
  have hns : ¬ s.duration ≤ s.currentTime + 16 := not_le.mpr h
  simp [tick, hp, hd, min_eq_left h.le, hns]

/-- C4: from any playing state with positive duration and currentTime ≤
duration, iterating the 16 ms tick N times with 16·N greater than the
remaining time yields currentTime = duration with the playing flag cleared
(the single automatic transition), and no number of ticks ever pushes
currentTime above the duration. -/
theorem playback_stops_at_duration (s : AnimationState) (N : ℕ)
    (hp : s.isPlaying = true) (hd : 0 < s.duration) (hc : s.currentTime ≤ s.duration)
    (hN : s.duration - s.currentTime < 16 * N) :
    (tick^[N] s).currentTime = s.duration ∧
    (tick^[N] s).isPlaying = false ∧
    ∀ k : ℕ, (tick^[k] s).currentTime ≤ s.duration := by
  have main : ∀ (M : ℕ) (u : AnimationState), u.isPlaying = true → 0 < u.duration →
      u.currentTime ≤ u.duration → u.duration - u.currentTime < 16 * M →
      (tick^[M] u).currentTime = u.duration ∧ (tick^[M] u).isPlaying = false := by
    intro M
    induction M with
    | zero =>
        intro u hp2 hd2 hc2 hM
        exfalso
        push_cast at hM
        linarith
    | succ n ih =>
        intro u hp2 hd2 hc2 hM
        by_cases hreach : u.duration ≤ u.currentTime + 16
        · rw [Function.iterate_succ_apply, tick_reaches u hp2 hd2 hreach,
            iterate_tick_stopped _ rfl n]
          exact ⟨rfl, rfl⟩
        · push_neg at hreach
          rw [Function.iterate_succ_apply, tick_advances u hp2 hd2 hreach]
          refine ih _ hp2 hd2 hreach.le ?_
          push_cast at hM ⊢
          linarith
  obtain ⟨h1, h2⟩ := main N s hp hd hc hN
  exact ⟨h1, h2, fun k => iterate_tick_time_le s hc k⟩

/-- Witness for C4: a 32 ms visualization reaches its end after 3 ticks. -/
theorem playback_stops_at_duration_witness :
    (tick^[3] demoPlaying).currentTime = 32 ∧ (tick^[3] demoPlaying).isPlaying = false := by
  have h := playback_stops_at_duration demoPlaying 3 rfl (by norm_num [demoPlaying])
    (by norm_num [demoPlaying]) (by norm_num [demoPlaying])
  exact ⟨h.1, h.2.1⟩

/-- C5 (amended): handleSeek leaves isPlaying and duration unchanged and
clamps currentTime to `[0, duration]`; for positive duration the stored
progress equals currentTime/duration, but for duration = 0 the JavaScript
division makes it 1 for positive seek times, NaN at 0 and 0 for negative
times — not the claimed 0. -/
theorem handleSeek_spec (s : AnimationState) (t : ℚ) :
    (handleSeek t s).isPlaying = s.isPlaying ∧
    (handleSeek t s).duration = s.duration ∧
    (handleSeek t s).currentTime = max 0 (min t s.duration) ∧
    (0 < s.duration →
      (handleSeek t s).progress = .num ((handleSeek t s).currentTime / s.duration)) ∧
    (s.duration = 0 →
      (handleSeek t s).progress =
        if 0 < t then JSVal.num 1 else if t = 0 then JSVal.nan else JSVal.num 0) := by
  refine ⟨rfl, rfl, rfl, ?_, ?_⟩
  · intro hd
    have hne : s.duration ≠ 0 := ne_of_gt hd
    have h1 : jsDiv (.num t) (.num s.duration) = .num (t / s.duration) := by
      simp [jsDiv, hne]
    show jsMax (.num 0) (jsMin (jsDiv (.num t) (.num s.duration)) (.num 1))
        = .num (max 0 (min t s.duration) / s.duration)
    rw [h1]
    show JSVal.num (max 0 (min (t / s.duration) 1))
        = .num (max 0 (min t s.duration) / s.duration)
    have key : max 0 (min t s.duration) / s.duration
        = max 0 (min (t / s.duration) 1) := by
      rw [← max_div_div_right hd.le, zero_div, ← min_div_div_right hd.le,
        div_self hne]
    rw [key]
  · intro hd0
    show jsMax (.num 0) (jsMin (jsDiv (.num t) (.num s.duration)) (.num 1)) = _
    rw [hd0]
    rcases lt_trichotomy t 0 with hlt | heq | hgt
    · have ha : t ≠ 0 := ne_of_lt hlt
      have hb : ¬ (0:ℚ) < t := not_lt.mpr hlt.le
      have h1 : jsDiv (.num t) (.num 0) = .negInf := by simp [jsDiv, ha, hb]
      rw [h1]
      simp [jsMin, jsMax, ha, hb]
    · subst heq
      have h1 : jsDiv (.num 0) (.num 0) = .nan := by simp [jsDiv]
      rw [h1]
      simp [jsMin, jsMax]
    · have ha : t ≠ 0 := ne_of_gt hgt
      have h1 : jsDiv (.num t) (.num 0) = .posInf := by simp [jsDiv, ha, hgt]
      rw [h1]
      simp [jsMin, jsMax, ha, hgt]

/-- Witness for C5 with a positive-duration state. -/
theorem handleSeek_spec_witness :
    (handleSeek 40 demoPlaying).currentTime = max 0 (min 40 demoPlaying.duration) ∧
    (handleSeek 40 demoPlaying).progress
      = .num ((handleSeek 40 demoPlaying).currentTime / demoPlaying.duration) := by
  have h := handleSeek_spec demoPlaying 40
  exact ⟨h.2.2.1, h.2.2.2.1 (by norm_num [demoPlaying])⟩

/-- Counterexample to C5 as stated: seeking to 100 on a state whose duration
is 0 stores progress 1 (from `Math.min(100/0, 1) = 1`), not the claimed 0. -/
theorem seek_zero_duration_counterexample :
    demoZeroDuration.duration = 0 ∧
    (handleSeek 100 demoZeroDuration).progress = .num 1 ∧
    (JSVal.num 1) ≠ .num 0 := by
  refine ⟨rfl, ?_, by norm_num⟩
  show jsMax (.num 0) (jsMin (jsDiv (.num 100) (.num 0)) (.num 1)) = .num 1
  have h1 : jsDiv (.num (100:ℚ)) (.num 0) = .posInf := by norm_num [jsDiv]
  rw [h1]
  show JSVal.num (max 0 1) = .num 1
  norm_num

/-- C9: an object whose type tag is outside the supported enumeration is
turned into a warning in place (no exception), and every sibling object in
the frame is still dispatched to its drawing function in list order. -/
theorem unknown_type_skipped (ts : ℚ) (pre post : List VisObject) (bad : VisObject)
    (hbad : dispatchDraw bad.type = none) :
    render ⟨ts, pre ++ bad :: post⟩ =
      pre.map drawObject ++ RenderEvent.warned bad.type :: post.map drawObject ∧
    drawObject bad = .warned bad.type ∧
    ∀ o ∈ pre ++ bad :: post, ∀ fn, dispatchDraw o.type = some fn →
      RenderEvent.drawn o.id fn ∈ render ⟨ts, pre ++ bad :: post⟩ := by
  have hwarn : drawObject bad = .warned bad.type := by
    simp [drawObject, hbad]
  refine ⟨?_, hwarn, ?_⟩
  · simp [render, hwarn]
  · intro o ho fn hfn
    have hdo : drawObject o = .drawn o.id fn := by simp [drawObject, hfn]
    simp only [render, List.mem_map]
    exact ⟨o, ho, hdo⟩

/-- Witness for C9: a circle, an unknown `blob` and a rectangle render as a
draw, a warning and a draw, in order. -/
theorem unknown_type_skipped_witness :
    render ⟨0, [⟨"a", "circle", fun _ => none⟩, ⟨"b", "blob", fun _ => none⟩,
        ⟨"c", "rect", fun _ => none⟩]⟩ =
      [.drawn "a" "drawCircle", .warned "blob", .drawn "c" "drawRectangle"] := by
  have h := unknown_type_skipped 0 [⟨"a", "circle", fun _ => none⟩]
    [⟨"c", "rect", fun _ => none⟩] ⟨"b", "blob", fun _ => none⟩ rfl
  exact h.1.trans (by simp [drawObject, dispatchDraw])

/-- C10: for an input with a layers array and positive duration d, the
transform emits exactly ⌈d/16⌉ frames with timestamps 16·i, which are
strictly increasing, and every timestamp (in particular the last) is
strictly below d, establishing the scene invariant duration ≥ last
timestamp. -/
theorem transform_frame_schedule (vis : DBVisualization) (layers : List Layer)
    (hl : vis.layers = some layers) (hd : 0 < vis.duration) :
    ∃ frames : List Frame,
      transformVisualizationData (some vis) = some frames ∧
      frames.length = (⌈vis.duration / 16⌉).toNat ∧
      (∀ i : ℕ, ∀ hi : i < frames.length, (frames.get ⟨i, hi⟩).timestamp = 16 * i) ∧
      List.Chain' (fun a b => a.timestamp < b.timestamp) frames ∧
      ∀ fr ∈ frames, fr.timestamp < vis.duration := by
  have hdd : durationOrDefault vis.duration = vis.duration := by
    simp [durationOrDefault, ne_of_gt hd]
  refine ⟨(List.range (frameCount vis.duration)).map (sampleFrame layers),
    ?_, ?_, ?_, ?_, ?_⟩
  · simp [transformVisualizationData, hl, hdd]
  · simp [frameCount]
  · intro i hi
    simp [sampleFrame]
  · refine List.Pairwise.chain' ?_
    refine List.Pairwise.map _ ?_ (List.pairwise_lt_range _)
    intro a b hab
    have hq : (a:ℚ) < b := by exact_mod_cast hab
    simpa [sampleFrame] using mul_lt_mul_of_pos_left hq (by norm_num : (0:ℚ) < 16)
  · intro fr hfr
    simp only [List.mem_map, List.mem_range] at hfr
    obtain ⟨i, hi, rfl⟩ := hfr
    show (sampleFrame layers i).timestamp < vis.duration
    have h1 : (i:ℤ) < ⌈vis.duration / 16⌉ := by
      simp only [frameCount] at hi
      exact Int.lt_toNat.mp hi
    have h2 : (i:ℚ) < vis.duration / 16 := by exact_mod_cast Int.lt_ceil.mp h1
    show (16:ℚ) * i < vis.duration
    linarith

/-- Helper: in a chain-sorted nonempty list the head is below every later
element. -/
theorem chain'_le_of_mem (fs : List Frame) : ∀ (f : Frame),
    List.Chain' (fun a b => a.timestamp ≤ b.timestamp) (f :: fs) →
    ∀ x ∈ fs, f.timestamp ≤ x.timestamp := by
  induction fs with
  | nil =>
      intro f _ x hx
      simp at hx
  | cons g gs ih =>
      intro f hchain x hx
      have h1 : f.timestamp ≤ g.timestamp := (List.chain'_cons.mp hchain).1
      have h2 := (List.chain'_cons.mp hchain).2
      rcases List.mem_cons.mp hx with rfl | hx2
      · exact h1
      · exact le_trans h1 (ih g h2 x hx2)

/-- Helper: the frame-lookup loop invariant.  Starting from an accumulator
already at or below the query time, the loop result stays at or below the
query time, never moves backwards, is the accumulator or a list element, and
dominates every list element at or below the query time. -/
theorem findFrameLoop_spec (t : ℚ) (l : List Frame) : ∀ (cur : Frame),
    List.Chain' (fun a b => a.timestamp ≤ b.timestamp) (cur :: l) →
    cur.timestamp ≤ t →
    (findFrameLoop t cur l).timestamp ≤ t ∧
    cur.timestamp ≤ (findFrameLoop t cur l).timestamp ∧
    (findFrameLoop t cur l = cur ∨ findFrameLoop t cur l ∈ l) ∧
    ∀ f ∈ l, f.timestamp ≤ t → f.timestamp ≤ (findFrameLoop t cur l).timestamp := by
  induction l with
  | nil =>
      intro cur _ hcur
      exact ⟨hcur, le_rfl, Or.inl rfl, by simp⟩
  | cons f fs ih =>
      intro cur hchain hcur
      have h1 : cur.timestamp ≤ f.timestamp := (List.chain'_cons.mp hchain).1
      have h2 := (List.chain'_cons.mp hchain).2
      by_cases hft : f.timestamp ≤ t
      · have hloop : findFrameLoop t cur (f :: fs) = findFrameLoop t f fs := by
          simp [findFrameLoop, hft]
        obtain ⟨ha, hb, hc, hd2⟩ := ih f h2 hft
        rw [hloop]
        refine ⟨ha, le_trans h1 hb, ?_, ?_⟩
        · rcases hc with hc | hc
          · rw [hc]
            exact Or.inr (List.mem_cons_self f fs)
          · exact Or.inr (List.mem_cons_of_mem f hc)
        · intro x hx hxt
          rcases List.mem_cons.mp hx with rfl | hx2
          · exact hb
          · exact hd2 x hx2 hxt
      · have hloop : findFrameLoop t cur (f :: fs) = cur := by
          simp [findFrameLoop, hft]
        rw [hloop]
        refine ⟨hcur, le_rfl, Or.inl rfl, ?_⟩
        intro x hx hxt
        rcases List.mem_cons.mp hx with rfl | hx2
        · exact absurd hxt hft
        · exact absurd (le_trans (chain'_le_of_mem fs f h2 x hx2) hxt) hft

/-- Helper: when every element is at or below the query time the loop walks
to the last element. -/
theorem findFrameLoop_all_le (t : ℚ) (l : List Frame) : ∀ (cur : Frame),
    (∀ f ∈ l, f.timestamp ≤ t) → findFrameLoop t cur l = l.getLastD cur := by
  induction l with
  | nil =>
      intro cur _
      rfl
  | cons f fs ih =>
      intro cur hall
      have hft : f.timestamp ≤ t := hall f (List.mem_cons_self f fs)
      have hloop : findFrameLoop t cur (f :: fs) = findFrameLoop t f fs := by
        simp [findFrameLoop, hft]
      rw [hloop, ih f (fun x hx => hall x (List.mem_cons_of_mem f hx)),
        List.getLastD_cons]

/-- Helper: in a chain-sorted list every element is at or below the last. -/
theorem chain'_le_getLastD (fs : List Frame) : ∀ (cur : Frame),
    List.Chain' (fun a b => a.timestamp ≤ b.timestamp) (cur :: fs) →
    ∀ x ∈ cur :: fs, x.timestamp ≤ (fs.getLastD cur).timestamp := by
  induction fs with
  | nil =>
      intro cur _ x hx
      rcases List.mem_cons.mp hx with rfl | hx2
      · exact le_rfl
      · simp at hx2
  | cons f fs2 ih =>
      intro cur hchain x hx
      have h1 : cur.timestamp ≤ f.timestamp := (List.chain'_cons.mp hchain).1
      have h2 := (List.chain'_cons.mp hchain).2
      rw [List.getLastD_cons]
      rcases List.mem_cons.mp hx with rfl | hx2
      · exact le_trans h1 (ih f h2 f (List.mem_cons_self f fs2))
      · exact ih f h2 x hx2

/-- C3: on a frame list with non-decreasing timestamps, getCurrentFrame
returns the frame whose timestamp is the greatest at or below the query time;
before the first frame it returns the first frame, at or past the last
frame's timestamp it returns the last frame, and it returns null for an
absent visualization or an empty frame list. -/
theorem getCurrentFrame_spec (frames : List Frame) (t : ℚ)
    (hs : List.Chain' (fun a b => a.timestamp ≤ b.timestamp) frames) :
    getCurrentFrame none t = none ∧
    getCurrentFrame (some []) t = none ∧
    ∀ f0 fs, frames = f0 :: fs →
      ∃ r, getCurrentFrame (some frames) t = some r ∧
        r ∈ frames ∧
        (t < f0.timestamp → r = f0) ∧
        (f0.timestamp ≤ t →
          r.timestamp ≤ t ∧ ∀ f ∈ frames, f.timestamp ≤ t → f.timestamp ≤ r.timestamp) ∧
        ∀ lf, frames.getLast? = some lf → lf.timestamp ≤ t → r = lf := by
  refine ⟨rfl, rfl, ?_⟩
  rintro f0 fs rfl
  refine ⟨findFrameLoop t f0 (f0 :: fs), rfl, ?_, ?_, ?_, ?_⟩
  · by_cases hf0 : f0.timestamp ≤ t
    · have hch : List.Chain' (fun a b => a.timestamp ≤ b.timestamp) (f0 :: f0 :: fs) :=
        List.chain'_cons.mpr ⟨le_rfl, hs⟩
      obtain ⟨_, _, hc, _⟩ := findFrameLoop_spec t (f0 :: fs) f0 hch hf0
      rcases hc with hc | hc
      · rw [hc]
        exact List.mem_cons_self _ _
      · exact hc
    · have hloop : findFrameLoop t f0 (f0 :: fs) = f0 := by
        simp [findFrameLoop, hf0]
      rw [hloop]
      exact List.mem_cons_self _ _
  · intro hlt
    simp [findFrameLoop, not_le.mpr hlt]
  · intro hf0
    have hch : List.Chain' (fun a b => a.timestamp ≤ b.timestamp) (f0 :: f0 :: fs) :=
      List.chain'_cons.mpr ⟨le_rfl, hs⟩
    obtain ⟨ha, _, _, hd2⟩ := findFrameLoop_spec t (f0 :: fs) f0 hch hf0
    exact ⟨ha, hd2⟩
  · intro lf hlf hlft
    have heq : fs.getLastD f0 = lf := by
      calc fs.getLastD f0 = (f0 :: fs).getLastD f0 := (List.getLastD_cons _ _ _).symm
        _ = ((f0 :: fs).getLast?).getD f0 := List.getLastD_eq_getLast? _ _
        _ = lf := by rw [hlf]; rfl
    have hall : ∀ x ∈ f0 :: fs, x.timestamp ≤ t := by
      intro x hx
      calc x.timestamp ≤ (fs.getLastD f0).timestamp := chain'_le_getLastD fs f0 hs x hx
        _ = lf.timestamp := by rw [heq]
        _ ≤ t := hlft
    calc findFrameLoop t f0 (f0 :: fs)
        = (f0 :: fs).getLastD f0 := findFrameLoop_all_le t (f0 :: fs) f0 hall
      _ = fs.getLastD f0 := List.getLastD_cons _ _ _
      _ = lf := heq

/-- Witness for C3: the frame list 0/16/32 queried at t = 20. -/
theorem getCurrentFrame_spec_witness :
    ∃ r, getCurrentFrame (some demoFrames) 20 = some r ∧ r ∈ demoFrames := by
  obtain ⟨r, h1, h2, _⟩ :=
    (getCurrentFrame_spec demoFrames 20 (by norm_num [demoFrames])).2.2
      ⟨0, []⟩ [⟨16, []⟩, ⟨32, []⟩] rfl
  exact ⟨r, h1, h2⟩

/-- Witness for C10 on the concrete 40 ms input (3 frames: 0, 16, 32). -/
theorem transform_frame_schedule_witness :
    ∃ frames : List Frame,
      transformVisualizationData (some demoVis) = some frames ∧
      frames.length = (⌈demoVis.duration / 16⌉).toNat ∧
      (∀ i : ℕ, ∀ hi : i < frames.length, (frames.get ⟨i, hi⟩).timestamp = 16 * i) ∧
      List.Chain' (fun a b => a.timestamp < b.timestamp) frames ∧
      ∀ fr ∈ frames, fr.timestamp < demoVis.duration :=
  transform_frame_schedule demoVis [] rfl (by norm_num [demoVis])

end AIFlow
